import Mathlib

/-
  Verification development for the jariahkusvg repository
  (pages/index.tsx: client-side SVG rasterization and export pipeline).

  JavaScript machine numbers that flow through the modelled code paths are
  finite and exactly representable for the inputs under study, so they are
  embedded as rationals; NaN is embedded as the `none` case of `Option`.
  Strings are embedded as `List Char` (a JS string is a sequence of code
  units; all inputs studied here are plain scalar text).
-/

set_option maxRecDepth 4000

namespace JariahSvg

/-- Embedding of JS Math.round on a finite number: floor of x + 1/2
    (Math.round rounds halves toward positive infinity). -/
def jsRound (q : ℚ) : ℤ := ⌊q + 1/2⌋

/-- Spec-side definition, following the spec words: rounding half away from
    zero (2.5 becomes 3, -2.5 becomes -3). Used to compare the claimed
    rounding law with the code's Math.round based computation. -/
def roundHalfAwayFromZero (q : ℚ) : ℤ := if 0 ≤ q then ⌊q + 1/2⌋ else -⌊-q + 1/2⌋

/-- Target size as requested by the caller of rasterizeSvg (outSize). -/
structure QSize where
  width : ℚ
  height : ℚ
deriving DecidableEq

/-- The background argument of rasterizeSvg: a color string and a
    transparency flag. -/
structure Background where
  color : List Char
  transparent : Bool
deriving DecidableEq

/-- The RasterFormat type of the source: "png" or "jpeg". -/
inductive RasterFormat where
  | png
  | jpeg
deriving DecidableEq

/-- The off-screen canvas state prepared by rasterizeSvg before drawing:
    its pixel dimensions and, when a background fill happened, the fill
    color used for the whole surface (fillRect covers 0,0..width,height).
    A fill of none means the surface is left fully transparent. -/
structure Surface where
  width : ℤ
  height : ℤ
  fill : Option (List Char)
deriving DecidableEq

/-- The default background color string of the source. -/
def whiteDefault : List Char := "#ffffff".data

/-- Embedding of rasterizeSvg lines 131-142: canvas.width and canvas.height
    are Math.max(1, Math.round(outSize.{width,height})); the surface is
    filled with background.color (or the default when the color string is
    empty, the only falsy string) exactly when format is jpeg or
    background.transparent is false. Image loading, drawImage and toBlob are
    browser primitives outside the decidable fragment and not needed by the
    claims about dimensions and background. -/
def rasterizeSurface (outSize : QSize) (format : RasterFormat) (background : Background) : Surface :=
  { width := max 1 (jsRound outSize.width)
    height := max 1 (jsRound outSize.height)
    fill :=
      if format = RasterFormat.jpeg ∨ background.transparent = false then
        some (if background.color = [] then whiteDefault else background.color)
      else
        none }

/-- Embedding of the Export Settings built at the rasterizeSvg call site in
    handleDownload (lines 221-224): transparent is the UI flag only when the
    format is png, and false otherwise. -/
def handleDownloadBackground (format : RasterFormat) (bgColor : List Char) (uiTransparent : Bool) : Background :=
  { color := bgColor
    transparent := if format = RasterFormat.png then uiTransparent else false }

/-- Helper: the clamped Math.round of the code agrees with the spec's
    rounding law stated as round-half-away-from-zero applied after the
    clamp to a minimum of 1. -/
theorem max_one_jsRound (q : ℚ) :
    max 1 (jsRound q) = roundHalfAwayFromZero (max 1 q) := by
  unfold jsRound roundHalfAwayFromZero
  rcases le_total 1 q with h | h
  · rw [max_eq_right h, if_pos (le_trans zero_le_one h)]
    have h1 : (1 : ℤ) ≤ ⌊q + 1/2⌋ := by
      rw [Int.le_floor]
      push_cast
      linarith
    rw [max_eq_right h1]
  · rw [max_eq_left h, if_pos zero_le_one]
    have h2 : ⌊(1 : ℚ) + 1/2⌋ = 1 := by
      rw [Int.floor_eq_iff]
      norm_num
    rw [h2]
    have h3 : ⌊q + 1/2⌋ ≤ (1 : ℤ) := by
      have := Int.floor_le_floor (α := ℚ) (show q + 1/2 ≤ 1 + 1/2 by linarith)
      omega
    rw [max_eq_left h3]

/-- C4: for every requested target size, the allocated surface measures
    round(max(1, width)) by round(max(1, height)) with rounding half away
    from zero and a floor of 1 per dimension, so no dimension is ever 0;
    in particular a request of 100.4 by 99.6 yields a 100 by 100 surface. -/
theorem surface_allocation_rounding :
    (∀ (sz : QSize) (f : RasterFormat) (bg : Background),
        (rasterizeSurface sz f bg).width = roundHalfAwayFromZero (max 1 sz.width) ∧
        (rasterizeSurface sz f bg).height = roundHalfAwayFromZero (max 1 sz.height) ∧
        1 ≤ (rasterizeSurface sz f bg).width ∧
        1 ≤ (rasterizeSurface sz f bg).height) ∧
    (rasterizeSurface ⟨1004/10, 996/10⟩ RasterFormat.png ⟨[], true⟩).width = 100 ∧
    (rasterizeSurface ⟨1004/10, 996/10⟩ RasterFormat.png ⟨[], true⟩).height = 100 := by
  have ha : jsRound (1004/10 : ℚ) = 100 := by
    unfold jsRound
    rw [Int.floor_eq_iff]
    norm_num
  have hb : jsRound (996/10 : ℚ) = 100 := by
    unfold jsRound
    rw [Int.floor_eq_iff]
    norm_num
  refine ⟨fun sz f bg => ⟨?_, ?_, ?_, ?_⟩, ?_, ?_⟩
  · exact max_one_jsRound sz.width
  · exact max_one_jsRound sz.height
  · exact le_max_left 1 _
  · exact le_max_left 1 _
  · show max 1 (jsRound (1004/10 : ℚ)) = 100
    rw [ha]
    decide
  · show max 1 (jsRound (996/10 : ℚ)) = 100
    rw [hb]
    decide

/-- C1: the surface is filled entirely with background.color (defaulting to
    the white default when the color string is empty) exactly when the
    format is jpeg or transparent is false; for png with transparent true
    there is no fill and the surface starts fully transparent. -/
theorem background_fill_rule (sz : QSize) (f : RasterFormat) (bg : Background) :
    ((rasterizeSurface sz f bg).fill ≠ none ↔
      (f = RasterFormat.jpeg ∨ bg.transparent = false)) ∧
    (rasterizeSurface sz f bg).fill =
      (if f = RasterFormat.jpeg ∨ bg.transparent = false then
        some (if bg.color = [] then whiteDefault else bg.color)
      else
        none) := by
  constructor
  · by_cases h : f = RasterFormat.jpeg ∨ bg.transparent = false <;>
      simp [rasterizeSurface, h]
  · rfl

/-- C2: whenever the selected format is jpeg, the Export Settings handed to
    the rasterizer by handleDownload have transparent = false, regardless of
    the transparency flag previously chosen in the UI. -/
theorem jpeg_forces_opaque_settings :
    ∀ (bgColor : List Char) (uiTransparent : Bool),
      (handleDownloadBackground RasterFormat.jpeg bgColor uiTransparent).transparent = false :=
  fun _ _ => rfl

/-- Stored pixel size of the Card component (size state). After any change
    handler has run, both fields are integers produced by Math.round. -/
structure ISize where
  width : ℤ
  height : ℤ
deriving DecidableEq

/-- Embedding of the JS expression v || 0 on a number that may be NaN
    (NaN is none): NaN and 0 give 0, every other number is kept. -/
def jsOrZero (v : Option ℚ) : ℚ :=
  match v with
  | some q => q
  | none => 0

/-- Embedding of onWidthChange (lines 201-208): the new width is
    Math.max(1, Math.round(v || 0)); with ratio lock the height is recomputed
    as Math.max(1, Math.round(width / aspect)), otherwise it is kept. -/
def onWidthChange (v : Option ℚ) (lock : Bool) (aspect : ℚ) (s : ISize) : ISize :=
  let width := max 1 (jsRound (jsOrZero v))
  if lock then
    { width := width, height := max 1 (jsRound ((width : ℚ) / aspect)) }
  else
    { width := width, height := s.height }

/-- Embedding of onHeightChange (lines 210-217): symmetric to onWidthChange,
    with the locked width recomputed as Math.max(1, Math.round(height * aspect)). -/
def onHeightChange (v : Option ℚ) (lock : Bool) (aspect : ℚ) (s : ISize) : ISize :=
  let height := max 1 (jsRound (jsOrZero v))
  if lock then
    { width := max 1 (jsRound ((height : ℚ) * aspect)), height := height }
  else
    { width := s.width, height := height }

/-- C9: for every numeric value v entered in the width or height control the
    stored dimension becomes max(1, round(v)); every Size reachable through
    the handlers keeps width and height at least 1 (the untouched field
    stays at least 1 when it already was); a width input of 0 is stored
    as 1. -/
theorem dimension_clamp_rule (v : ℚ) (lock : Bool) (aspect : ℚ) (s : ISize) :
    (onWidthChange (some v) lock aspect s).width = max 1 (jsRound v) ∧
    1 ≤ (onWidthChange (some v) lock aspect s).width ∧
    (1 ≤ s.height → 1 ≤ (onWidthChange (some v) lock aspect s).height) ∧
    (onHeightChange (some v) lock aspect s).height = max 1 (jsRound v) ∧
    1 ≤ (onHeightChange (some v) lock aspect s).height ∧
    (1 ≤ s.width → 1 ≤ (onHeightChange (some v) lock aspect s).width) ∧
    (onWidthChange (some 0) lock aspect s).width = 1 := by
  have h0 : jsRound (0 : ℚ) = 0 := by
    show ⌊(0 : ℚ) + 1/2⌋ = 0
    rw [Int.floor_eq_iff]
    norm_num
  have hmax : max (1 : ℤ) 0 = 1 := by decide
  cases lock <;>
    simp [onWidthChange, onHeightChange, jsOrZero, h0, hmax, le_max_left]

/-- Closed witness for the dimension clamp rule at a concrete input. -/
theorem dimension_clamp_rule_witness :
    1 ≤ (onWidthChange (some 2) false 1 ⟨3, 4⟩).height ∧
    1 ≤ (onHeightChange (some 2) false 1 ⟨3, 4⟩).width :=
  ⟨(dimension_clamp_rule 2 false 1 ⟨3, 4⟩).2.2.1 (by norm_num),
   (dimension_clamp_rule 2 false 1 ⟨3, 4⟩).2.2.2.2.2.1 (by norm_num)⟩

/-- The observable actions of downloadBlob (lines 162-171), in source
    order: create the object URL, create the anchor, set href and download,
    append the anchor, click it, remove it, revoke the object URL. -/
inductive DlStep where
  | createUrl
  | createAnchor
  | setHref
  | setDownload
  | appendAnchor
  | clickAnchor
  | removeAnchor
  | revokeUrl
deriving DecidableEq

/-- The straight-line body of downloadBlob as the list of its actions. -/
def downloadBlobSteps : List DlStep :=
  [DlStep.createUrl, DlStep.createAnchor, DlStep.setHref, DlStep.setDownload,
   DlStep.appendAnchor, DlStep.clickAnchor, DlStep.removeAnchor, DlStep.revokeUrl]

/-- Exception model of downloadBlob: the body has no try or finally, so if
    the step at position k throws, exactly the steps before it have run;
    with no failure the whole body runs. -/
def downloadBlobTrace (failAt : Option ℕ) : List DlStep :=
  match failAt with
  | none => downloadBlobSteps
  | some k => downloadBlobSteps.take k

/-- C10 counterexample: when the click step (position 5, the step that
    initiates the save) throws, the object URL was created but is never
    revoked, so the transient reference is not released on that path. -/
theorem revoke_skipped_on_failure :
    DlStep.createUrl ∈ downloadBlobTrace (some 5) ∧
    DlStep.revokeUrl ∉ downloadBlobTrace (some 5) := by
  decide

/-- C10 amended: the object URL is revoked as the final action on the
    success path, immediately after the anchor steps that use it; on every
    failing path (an exception at any step) the revoke action never runs,
    so release is not guaranteed regardless of outcome. -/
theorem object_url_release_amended :
    downloadBlobTrace none = downloadBlobSteps ∧
    (downloadBlobTrace none).getLast? = some DlStep.revokeUrl ∧
    DlStep.createUrl ∈ downloadBlobTrace none ∧
    (∀ k : ℕ, k < 8 → DlStep.revokeUrl ∉ downloadBlobTrace (some k)) := by
  refine ⟨rfl, by decide, by decide, ?_⟩
  intro k hk
  interval_cases k <;> decide

/-- Closed witness for the amended release property at a concrete failing
    position. -/
theorem object_url_release_amended_witness :
    DlStep.revokeUrl ∉ downloadBlobTrace (some 7) :=
  object_url_release_amended.2.2.2 7 (by norm_num)

/-- Characters of the JS regular-expression class for whitespace:
    the ASCII whitespace characters plus the Unicode space separators,
    line separators and the byte order mark. -/
def isJsWs (c : Char) : Bool :=
  c.toNat = 32 || c.toNat = 9 || c.toNat = 10 || c.toNat = 11 || c.toNat = 12 ||
  c.toNat = 13 || c.toNat = 160 || c.toNat = 5760 ||
  (8192 ≤ c.toNat && c.toNat ≤ 8202) ||
  c.toNat = 8232 || c.toNat = 8233 || c.toNat = 8239 || c.toNat = 8287 ||
  c.toNat = 12288 || c.toNat = 65279

/-- Length of dropWhile never exceeds the length of the input. -/
theorem dropWhileLen {α : Type} (p : α → Bool) : ∀ l : List α, (l.dropWhile p).length ≤ l.length
  | [] => le_refl _
  | c :: rest => by
    rw [List.dropWhile_cons]
    split
    · exact le_trans (dropWhileLen p rest) (Nat.le_succ _)
    · exact le_refl _

/-- Worker for the whitespace-run replacement: the flag records whether the
    previous character belonged to a whitespace run, so each maximal run
    produces exactly one hyphen. -/
def collapseWsAux : Bool → List Char → List Char
  | _, [] => []
  | prevWs, c :: rest =>
    if isJsWs c then
      (if prevWs then [] else [Char.ofNat 45]) ++ collapseWsAux true rest
    else
      c :: collapseWsAux false rest

/-- Embedding of the global replacement of every maximal whitespace run by a
    single hyphen, as performed by the JS regex replace in the filename
    construction. -/
def collapseWsToHyphen (l : List Char) : List Char := collapseWsAux false l

/-- Characters kept by the filename sanitizer: lowercase ASCII letters,
    ASCII digits and the hyphen. -/
def isSlugChar (c : Char) : Bool :=
  (97 ≤ c.toNat && c.toNat ≤ 122) || (48 ≤ c.toNat && c.toNat ≤ 57) || c.toNat = 45

/-- Embedding of the filename slug of handleDownload (lines 225-228):
    the display name lower-cased (ASCII model of toLowerCase, exact on the
    names of this catalog), whitespace runs replaced by single hyphens, then
    every character outside lowercase letters, digits and hyphen removed. -/
def slugName (name : List Char) : List Char :=
  (collapseWsToHyphen (name.map Char.toLower)).filter isSlugChar

/-- The file extension chosen by handleDownload: jpg for jpeg, png otherwise. -/
def extChars : RasterFormat → List Char
  | RasterFormat.jpeg => "jpg".data
  | RasterFormat.png => "png".data

/-- Decimal rendering of an integer dimension, as JS renders an integral
    number into the template string. -/
def intChars (n : ℤ) : List Char := (toString n).data

/-- Embedding of the full filename template of handleDownload. -/
def downloadFilename (name : List Char) (w h : ℤ) (format : RasterFormat) : List Char :=
  slugName name ++ ("-".data) ++ intChars w ++ ("x".data) ++ intChars h ++
    (".".data) ++ extChars format

/-- C8: the download filename is the sanitized display name followed by
    -widthxheight and the format extension (jpg for jpeg, png otherwise);
    the sanitized part only contains lowercase letters, digits and hyphens;
    the item named Masjid Siluet at 512 by 341 in jpeg format yields
    masjid-siluet-512x341.jpg. -/
theorem download_filename_rule :
    downloadFilename ("Masjid Siluet".data) 512 341 RasterFormat.jpeg =
      ("masjid-siluet-512x341.jpg").data ∧
    (∀ name : List Char, (slugName name).all isSlugChar = true) ∧
    (∀ (name : List Char) (w h : ℤ) (f : RasterFormat),
      downloadFilename name w h f =
        slugName name ++ ("-".data) ++ intChars w ++ ("x".data) ++ intChars h ++
          (".".data) ++ extChars f) ∧
    extChars RasterFormat.jpeg = "jpg".data ∧
    extChars RasterFormat.png = "png".data := by
  refine ⟨by decide, ?_, fun _ _ _ _ => rfl, rfl, rfl⟩
  intro name
  rw [List.all_eq_true]
  intro c hc
  exact (List.mem_filter.mp hc).2

/-- Test whether the first list is a prefix of the second, by characters. -/
def startsWithChars : List Char → List Char → Bool
  | [], _ => true
  | _ :: _, [] => false
  | p :: ps, c :: cs => p == c && startsWithChars ps cs

/-- Embedding of the JS substring containment test (String.includes). -/
def containsChars (pat : List Char) : List Char → Bool
  | [] => pat.isEmpty
  | c :: rest => startsWithChars pat (c :: rest) || containsChars pat rest

/-- Fuelled worker for global literal replacement; one unit of fuel is spent
    per consumed character, so fuel equal to the input length suffices. -/
def replaceAllFuel (pat rep : List Char) : ℕ → List Char → List Char
  | _, [] => []
  | 0, l => l
  | fuel + 1, c :: rest =>
    if !pat.isEmpty && startsWithChars pat (c :: rest) then
      rep ++ replaceAllFuel pat rep fuel ((c :: rest).drop pat.length)
    else
      c :: replaceAllFuel pat rep fuel rest

/-- Embedding of the JS global literal string replacement (replace with a
    global regex of a literal pattern): scan left to right, replacing
    non-overlapping occurrences of the pattern. -/
def replaceAllChars (pat rep : List Char) (l : List Char) : List Char :=
  replaceAllFuel pat rep l.length l

/-- Uppercase hexadecimal digit for a value below 16. -/
def hexDigitChar (n : ℕ) : Char :=
  if n < 10 then Char.ofNat (48 + n) else Char.ofNat (55 + n)

/-- UTF-8 bytes of a Unicode scalar value. -/
def utf8Bytes (n : ℕ) : List ℕ :=
  if n < 128 then [n]
  else if n < 2048 then [192 + n / 64, 128 + n % 64]
  else if n < 65536 then [224 + n / 4096, 128 + (n / 64) % 64, 128 + n % 64]
  else [240 + n / 262144, 128 + (n / 4096) % 64, 128 + (n / 64) % 64, 128 + n % 64]

/-- Characters that encodeURIComponent leaves unescaped: ASCII letters,
    digits, and - _ . ! ~ * quote-mark ( ). -/
def isUnreserved (c : Char) : Bool :=
  (65 ≤ c.toNat && c.toNat ≤ 90) || (97 ≤ c.toNat && c.toNat ≤ 122) ||
  (48 ≤ c.toNat && c.toNat ≤ 57) ||
  c.toNat = 45 || c.toNat = 95 || c.toNat = 46 || c.toNat = 33 ||
  c.toNat = 126 || c.toNat = 42 || c.toNat = 39 || c.toNat = 40 || c.toNat = 41

/-- Percent escape of one character as its UTF-8 byte sequence in uppercase
    hexadecimal. -/
def pctEncodeChar (c : Char) : List Char :=
  (utf8Bytes c.toNat).flatMap (fun b => [Char.ofNat 37, hexDigitChar (b / 16), hexDigitChar (b % 16)])

/-- Embedding of the JS encodeURIComponent builtin on a string. -/
def encodeURIComponent (s : List Char) : List Char :=
  s.flatMap (fun c => if isUnreserved c then [c] else pctEncodeChar c)

/-- The namespace substring tested by svgToDataUrl. -/
def charsXmlns : List Char := "xmlns=".data

/-- The text inserted after the first matching svg opening token by
    svgToDataUrl, a space followed by the standard namespace declaration. -/
def xmlnsInsertion : List Char := " xmlns=\"http://www.w3.org/2000/svg\"".data

/-- Whether the match of the source regex for the svg opening token starts
    here: the literal characters svg after the angle bracket already
    consumed, followed by a word boundary (end of input or a character that
    is not an ASCII letter, digit or underscore). -/
def svgOpenHere (c : Char) (rest : List Char) : Bool :=
  c == Char.ofNat 60 && startsWithChars ("svg".data) rest &&
    (match rest.drop 3 with
     | [] => true
     | d :: _ => !((65 ≤ d.toNat && d.toNat ≤ 90) || (97 ≤ d.toNat && d.toNat ≤ 122) ||
                   (48 ≤ d.toNat && d.toNat ≤ 57) || d.toNat = 95))

/-- Embedding of the single (non-global) regex replacement of svgToDataUrl
    lines 99-102: the first occurrence of the svg opening token receives the
    namespace declaration; if there is none, the markup is unchanged. -/
def replaceSvgOpen : List Char → List Char
  | [] => []
  | c :: rest =>
    if svgOpenHere c rest then
      ("<svg".data) ++ xmlnsInsertion ++ rest.drop 3
    else
      c :: replaceSvgOpen rest

/-- Whether some position of the list matches the svg opening token. -/
def hasSvgOpen : List Char → Bool
  | [] => false
  | c :: rest => svgOpenHere c rest || hasSvgOpen rest

/-- Embedding of svgToDataUrl lines 98-103: inject the namespace declaration
    only when the whole markup string nowhere contains the substring
    xmlns=. -/
def ensureXmlns (svg : List Char) : List Char :=
  if containsChars charsXmlns svg then svg else replaceSvgOpen svg

/-- The apostrophe character, the replacement that svgToDataUrl substitutes
    for every encoded double quote. -/
def apos : Char := Char.ofNat 39

/-- The fixed media-type head of the produced URI. -/
def dataUrlHead : List Char := "data:image/svg+xml;charset=utf-8,".data

/-- Embedding of the replace chain of svgToDataUrl lines 104-111, in source
    order: encoded newlines removed, then encoded space, equals sign, colon
    and slash restored, then encoded double quotes replaced by apostrophes. -/
def decodeForUrl (l : List Char) : List Char :=
  replaceAllChars ("%22".data) [apos]
    (replaceAllChars ("%2F".data) ("/".data)
      (replaceAllChars ("%3A".data) (":".data)
        (replaceAllChars ("%3D".data) ("=".data)
          (replaceAllChars ("%20".data) (" ".data)
            (replaceAllChars ("%0A".data) [] l)))))

/-- Embedding of svgToDataUrl (lines 96-114). -/
def svgToDataUrl (svg : List Char) : List Char :=
  dataUrlHead ++ decodeForUrl (encodeURIComponent (ensureXmlns svg))

/-- Spec-side decode chain following the words of the claim for C5: the
    same selective decoding, but with every encoded double quote restored
    to the literal double quote character. -/
def claimDecodeForUrl (l : List Char) : List Char :=
  replaceAllChars ("%22".data) ("\"".data)
    (replaceAllChars ("%2F".data) ("/".data)
      (replaceAllChars ("%3A".data) (":".data)
        (replaceAllChars ("%3D".data) ("=".data)
          (replaceAllChars ("%20".data) (" ".data)
            (replaceAllChars ("%0A".data) [] l)))))

/-- Spec-side composition following the words of the claim for C5, applied
    to markup that already declares the namespace so that the claimed
    output is the decoded percent-encoding of the markup itself. -/
def svgToDataUrlClaim (svg : List Char) : List Char :=
  dataUrlHead ++ claimDecodeForUrl (encodeURIComponent svg)

/-- A concrete markup containing a newline and double quotes, with the
    namespace already declared. -/
def sQuote : List Char := "<svg xmlns=\"u\">\n</svg>".data

/-- C5 counterexample: on concrete markup containing a double quote, the
    produced URI differs from the claimed one in which the quote character
    is restored to literal form; the code substitutes an apostrophe
    instead. -/
theorem quote_not_restored : svgToDataUrl sQuote ≠ svgToDataUrlClaim sQuote := by
  decide

/-- C5 amended: the produced URI is the fixed media-type head followed by
    the percent-encoded namespace-ensured markup in which every encoded
    newline is removed entirely, encoded space, equals sign, colon and
    slash are restored to literal form, and every encoded double quote is
    replaced by an apostrophe; the concrete markup with a newline and
    double quotes around u yields the URI with apostrophes around u and no
    trace of the newline. -/
theorem data_url_amended :
    (∀ s : List Char,
      svgToDataUrl s = dataUrlHead ++ decodeForUrl (encodeURIComponent (ensureXmlns s))) ∧
    svgToDataUrl sQuote =
      ("data:image/svg+xml;charset=utf-8,%3Csvg xmlns=".data) ++ [apos] ++ ("u".data) ++
        [apos] ++ ("%3E%3C/svg%3E".data) := by
  exact ⟨fun s => rfl, by decide⟩

/-- Containment is preserved when text is prepended. -/
theorem contains_append_right (pat s t : List Char) :
    containsChars pat t = true → containsChars pat (s ++ t) = true := by
  induction s with
  | nil => intro h; simpa using h
  | cons c cs ih =>
    intro h
    show (startsWithChars pat (c :: (cs ++ t)) || containsChars pat (cs ++ t)) = true
    rw [ih h]
    simp

/-- A list starts with itself, whatever follows. -/
theorem startsWith_self_append (pat r : List Char) :
    startsWithChars pat (pat ++ r) = true := by
  induction pat with
  | nil => rfl
  | cons p ps ih =>
    show (p == p && startsWithChars ps (ps ++ r)) = true
    rw [ih]
    simp

/-- A list contains any of its own prefixes placed at the front. -/
theorem contains_self_append (pat r : List Char) :
    containsChars pat (pat ++ r) = true := by
  cases pat with
  | nil =>
    cases r with
    | nil => rfl
    | cons c cs => show (startsWithChars [] _ || _) = true; rfl
  | cons p ps =>
    show (startsWithChars (p :: ps) ((p :: ps) ++ r) || _) = true
    rw [startsWith_self_append]
    simp

/-- Shape of the inserted declaration: a space, then the xmlns= substring,
    then the quoted namespace value. -/
theorem xmlnsInsertion_shape :
    xmlnsInsertion = Char.ofNat 32 :: (charsXmlns ++ ("\"http://www.w3.org/2000/svg\"".data)) := by
  decide

/-- When the markup has an svg opening token, the single replacement of
    svgToDataUrl inserts text containing the xmlns= substring. -/
theorem replaceSvgOpen_inserts :
    ∀ s : List Char, hasSvgOpen s = true →
      containsChars charsXmlns (replaceSvgOpen s) = true := by
  intro s
  induction s with
  | nil => intro h; simp [hasSvgOpen] at h
  | cons c rest ih =>
    intro h
    show containsChars charsXmlns
        (if svgOpenHere c rest then ("<svg".data) ++ xmlnsInsertion ++ rest.drop 3
         else c :: replaceSvgOpen rest) = true
    by_cases hc : svgOpenHere c rest = true
    · rw [if_pos hc, xmlnsInsertion_shape]
      have : ("<svg".data) ++ (Char.ofNat 32 :: (charsXmlns ++ ("\"http://www.w3.org/2000/svg\"".data))) ++ rest.drop 3
          = (("<svg".data) ++ [Char.ofNat 32]) ++ (charsXmlns ++ (("\"http://www.w3.org/2000/svg\"".data) ++ rest.drop 3)) := by
        simp [List.append_assoc]
      rw [this]
      exact contains_append_right _ _ _ (contains_self_append charsXmlns _)
    · rw [if_neg hc]
      have hrest : hasSvgOpen rest = true := by
        have := h
        simp only [hasSvgOpen, Bool.or_eq_true] at this
        rcases this with h1 | h2
        · exact absurd h1 hc
        · exact h2
      have := ih hrest
      have h2 : containsChars charsXmlns ([c] ++ replaceSvgOpen rest) = true :=
        contains_append_right _ [c] _ this
      simpa using h2

/-- Spec-side notion for C6, following the claim words: the root opening
    tag of the markup, read as the text from the first angle bracket up to
    the first closing angle bracket. -/
def rootOpenTag (s : List Char) : List Char :=
  (s.dropWhile (fun c => !(c == Char.ofNat 60))).takeWhile (fun c => !(c == Char.ofNat 62))

/-- Spec-side notion for C6: whether the root element carries a namespace
    declaration, read as the root opening tag containing xmlns=. -/
def rootHasNamespaceDecl (s : List Char) : Bool :=
  containsChars charsXmlns (rootOpenTag s)

/-- A concrete markup whose root element lacks a namespace declaration
    while a nested element declares it. -/
def sNestedNs : List Char :=
  "<svg viewBox=\"0 0 1 1\"><g xmlns=\"http://www.w3.org/2000/svg\"></g></svg>".data

/-- C6 counterexample: on concrete markup whose root element lacks the
    namespace declaration (it sits on a nested element instead), the code
    performs no injection, because its test looks for the xmlns= substring
    anywhere in the markup: the markup is encoded unmodified and its root
    still lacks the declaration. -/
theorem xmlns_root_counterexample :
    rootHasNamespaceDecl sNestedNs = false ∧
    ensureXmlns sNestedNs = sNestedNs ∧
    rootHasNamespaceDecl (ensureXmlns sNestedNs) = false := by
  refine ⟨by decide, by decide, by decide⟩

/-- C6 amended: the injection is keyed on the whole markup string, not the
    root element: markup containing the substring xmlns= anywhere is
    encoded unmodified, and when the substring occurs nowhere and an svg
    opening token exists, the declaration is injected after that token, so
    the encoded markup then contains xmlns=. -/
theorem ensure_xmlns_amended (s : List Char) :
    (containsChars charsXmlns s = true → ensureXmlns s = s) ∧
    (containsChars charsXmlns s = false → hasSvgOpen s = true →
      containsChars charsXmlns (ensureXmlns s) = true) := by
  constructor
  · intro h
    unfold ensureXmlns
    rw [if_pos h]
  · intro h hopen
    unfold ensureXmlns
    rw [if_neg (by rw [h]; exact Bool.false_ne_true)]
    exact replaceSvgOpen_inserts s hopen

/-- Closed witness for the amended injection rule: markup already declaring
    the namespace is kept, and markup without it gets the declaration. -/
theorem ensure_xmlns_amended_witness :
    ensureXmlns ("<svg xmlns=\"u\"></svg>".data) = ("<svg xmlns=\"u\"></svg>".data) ∧
    containsChars charsXmlns (ensureXmlns ("<svg></svg>".data)) = true :=
  ⟨(ensure_xmlns_amended ("<svg xmlns=\"u\"></svg>".data)).1 (by decide),
   (ensure_xmlns_amended ("<svg></svg>".data)).2 (by decide) (by decide)⟩

/-- Worker for splitting on whitespace runs; the flag records whether the
    previous character belonged to the current run, so every maximal run
    separates exactly two pieces. Mirrors the JS split on a one-or-more
    whitespace regex, including the empty leading and trailing pieces. -/
def splitWsAux : Bool → List Char → List Char → List (List Char)
  | _, acc, [] => [acc.reverse]
  | prevWs, acc, c :: rest =>
    if isJsWs c then
      if prevWs then splitWsAux true acc rest
      else acc.reverse :: splitWsAux true [] rest
    else splitWsAux false (c :: acc) rest

/-- Embedding of the JS split on a one-or-more whitespace regex. -/
def jsSplitWs (l : List Char) : List (List Char) := splitWsAux false [] l

/-- Embedding of JS String.trim: whitespace removed from both ends. -/
def jsTrim (l : List Char) : List Char :=
  ((l.dropWhile isJsWs).reverse.dropWhile isJsWs).reverse

/-- Digits of a decimal numeral folded into a natural number. -/
def natOfDigits (l : List Char) : ℕ := l.foldl (fun a c => 10 * a + (c.toNat - 48)) 0

/-- All characters are ASCII decimal digits. -/
def allDigits (l : List Char) : Bool := l.all Char.isDigit

/-- Exponent markers of JS numeric literals. -/
def isExpChar (c : Char) : Bool := c == Char.ofNat 101 || c == Char.ofNat 69

/-- Split a list at the first character satisfying the test: the part
    before it, and the part after it when it exists. -/
def splitFirst (p : Char → Bool) : List Char → List Char × Option (List Char)
  | [] => ([], none)
  | c :: rest =>
    if p c then ([], some rest)
    else
      let pr := splitFirst p rest
      (c :: pr.1, pr.2)

/-- Unsigned decimal mantissa of a JS numeric literal: digits, optionally a
    dot with further digits, at least one digit in total; anything else is
    not a number. -/
def parseMant (l : List Char) : Option ℚ :=
  let pr := splitFirst (fun c => c == Char.ofNat 46) l
  match pr.2 with
  | none => if !pr.1.isEmpty && allDigits pr.1 then some ((natOfDigits pr.1 : ℚ)) else none
  | some fp =>
    if allDigits pr.1 && allDigits fp && (!pr.1.isEmpty || !fp.isEmpty) then
      some ((natOfDigits pr.1 : ℚ) + (natOfDigits fp : ℚ) / (10 : ℚ) ^ fp.length)
    else none

/-- Signed integer exponent of a JS numeric literal. -/
def parseExpPart (l : List Char) : Option ℤ :=
  match l with
  | [] => none
  | c :: rest =>
    if c == Char.ofNat 43 then
      if !rest.isEmpty && allDigits rest then some ((natOfDigits rest : ℤ)) else none
    else if c == Char.ofNat 45 then
      if !rest.isEmpty && allDigits rest then some (-(natOfDigits rest : ℤ)) else none
    else if allDigits (c :: rest) then some ((natOfDigits (c :: rest) : ℤ)) else none

/-- Unsigned decimal literal with optional exponent, matched in full. -/
def parseDecCore (l : List Char) : Option ℚ :=
  let pr := splitFirst isExpChar l
  match pr.2 with
  | none => parseMant pr.1
  | some e => (parseMant pr.1).bind fun q => (parseExpPart e).map fun ex => q * (10 : ℚ) ^ ex

/-- Value of a hexadecimal digit. -/
def hexVal (c : Char) : Option ℕ :=
  if 48 ≤ c.toNat && c.toNat ≤ 57 then some (c.toNat - 48)
  else if 65 ≤ c.toNat && c.toNat ≤ 70 then some (c.toNat - 55)
  else if 97 ≤ c.toNat && c.toNat ≤ 102 then some (c.toNat - 87)
  else none

/-- Nonempty digit string in the given radix folded into a natural number. -/
def radixNat (radix : ℕ) (l : List Char) : Option ℕ :=
  match l with
  | [] => none
  | _ =>
    l.foldl
      (fun acc c =>
        acc.bind fun a => (hexVal c).bind fun d =>
          if d < radix then some (radix * a + d) else none)
      (some 0)

/-- Embedding of the JS Number conversion on a whitespace-free token, as
    produced by the split in getSvgIntrinsicSize: empty is 0; hexadecimal,
    octal and binary literal forms; otherwise an optionally signed decimal
    literal with optional fraction and exponent; everything else is NaN
    (none). Finite-value model: the Infinity token, which cannot yield a
    well-formed finite size, is mapped to none as well. -/
def jsNumber (l : List Char) : Option ℚ :=
  match l with
  | [] => some 0
  | _ =>
    if startsWithChars ("0x".data) l || startsWithChars ("0X".data) l then
      (radixNat 16 (l.drop 2)).map (fun n => (n : ℚ))
    else if startsWithChars ("0o".data) l || startsWithChars ("0O".data) l then
      (radixNat 8 (l.drop 2)).map (fun n => (n : ℚ))
    else if startsWithChars ("0b".data) l || startsWithChars ("0B".data) l then
      (radixNat 2 (l.drop 2)).map (fun n => (n : ℚ))
    else if startsWithChars ("-".data) l then (parseDecCore (l.drop 1)).map Neg.neg
    else if startsWithChars ("+".data) l then parseDecCore (l.drop 1)
    else parseDecCore l

/-- Exponent consumed by parseFloat after the mantissa: only when an
    exponent marker is followed by an optional sign and at least one digit;
    any further text is ignored. -/
def expOfSuffix (r : List Char) : ℤ :=
  match r with
  | [] => 0
  | c :: rest =>
    if isExpChar c then
      let sgn : ℤ := if startsWithChars ("-".data) rest then -1 else 1
      let ds0 :=
        if startsWithChars ("-".data) rest || startsWithChars ("+".data) rest then rest.drop 1
        else rest
      let ds := ds0.takeWhile Char.isDigit
      if ds.isEmpty then 0 else sgn * (natOfDigits ds : ℤ)
    else 0

/-- Longest unsigned decimal prefix accepted by parseFloat: leading digits,
    optionally a dot and further digits, then an optional exponent; NaN
    (none) when no digit is found before trailing text. -/
def floatCore (l : List Char) : Option ℚ :=
  let ip := l.takeWhile Char.isDigit
  let r1 := l.dropWhile Char.isDigit
  let fp := if startsWithChars (".".data) r1 then (r1.drop 1).takeWhile Char.isDigit else []
  let r2 := if startsWithChars (".".data) r1 then (r1.drop 1).dropWhile Char.isDigit else r1
  if ip.isEmpty && fp.isEmpty then none
  else
    some (((natOfDigits ip : ℚ) + (natOfDigits fp : ℚ) / (10 : ℚ) ^ fp.length) *
      (10 : ℚ) ^ expOfSuffix r2)

/-- Embedding of the JS parseFloat builtin (finite-value model; an Infinity
    prefix, which cannot yield a well-formed finite size, is none). -/
def jsParseFloat (l0 : List Char) : Option ℚ :=
  let l1 := l0.dropWhile isJsWs
  if startsWithChars ("-".data) l1 then (floatCore (l1.drop 1)).map Neg.neg
  else if startsWithChars ("+".data) l1 then floatCore (l1.drop 1)
  else floatCore l1

/-- Embedding of the unit-stripping regex of getSvgIntrinsicSize: a trailing
    run of ASCII letters or percent signs is removed. -/
def stripUnitSuffix (l : List Char) : List Char :=
  (l.reverse.dropWhile (fun c =>
    (65 ≤ c.toNat && c.toNat ≤ 90) || (97 ≤ c.toNat && c.toNat ≤ 122) || c.toNat = 37)).reverse

/-- Embedding of parseLen in getSvgIntrinsicSize (lines 83-84): a missing or
    empty attribute is NaN; otherwise parseFloat of the attribute with its
    trailing unit suffix stripped. -/
def parseLen (attr : Option (List Char)) : Option ℚ :=
  match attr with
  | none => none
  | some l => if l.isEmpty then none else jsParseFloat (stripUnitSuffix l)

/-- The root element of the parsed markup as seen by getSvgIntrinsicSize:
    its viewBox, width and height attribute strings, each possibly absent.
    The DOMParser builtin is a browser primitive; a parse that throws is
    modelled as the none case of the document below. -/
structure SvgRoot where
  viewBox : Option (List Char)
  widthAttr : Option (List Char)
  heightAttr : Option (List Char)
deriving DecidableEq

/-- The viewBox arm of getSvgIntrinsicSize on the token values: exactly
    four tokens, none NaN, and a size is produced only when the third and
    fourth are strictly positive. -/
def viewBoxFromTokens : List (Option ℚ) → Option QSize
  | [some _, some _, some w, some h] => if 0 < w ∧ 0 < h then some ⟨w, h⟩ else none
  | _ => none

/-- The viewBox arm of getSvgIntrinsicSize on the attribute string (lines
    72-78): trim, split on whitespace, convert every token with Number. -/
def viewBoxSize (vb : List Char) : Option QSize :=
  viewBoxFromTokens ((jsSplitWs (jsTrim vb)).map jsNumber)

/-- The viewBox arm including the truthiness test of the attribute: absent
    or empty attributes are skipped. -/
def viewBoxResult (vbAttr : Option (List Char)) : Option QSize :=
  match vbAttr with
  | none => none
  | some vb => if vb.isEmpty then none else viewBoxSize vb

/-- The width and height attribute arm of getSvgIntrinsicSize (lines
    80-88): both must parse to strictly positive numbers. -/
def attrSize (root : SvgRoot) : Option QSize :=
  match parseLen root.widthAttr, parseLen root.heightAttr with
  | some w, some h => if 0 < w ∧ 0 < h then some ⟨w, h⟩ else none
  | _, _ => none

/-- Embedding of getSvgIntrinsicSize (lines 66-94) over the parsed root:
    a failed parse (the try-catch arm) gives null, otherwise the viewBox
    arm takes priority and the attribute arm is the fallback. The Lean
    function is total, modelling that the source never throws to its
    caller. -/
def getSvgIntrinsicSize (doc : Option SvgRoot) : Option QSize :=
  match doc with
  | none => none
  | some root =>
    match viewBoxResult root.viewBox with
    | some s => some s
    | none => attrSize root

/-- C3: whenever the root carries a viewBox attribute whose trimmed
    whitespace-split tokens convert to exactly four numbers, none NaN, with
    the third and fourth strictly positive, the resolved intrinsic size is
    exactly those third and fourth values, whatever the width and height
    attributes hold. -/
theorem viewBox_takes_priority (root : SvgRoot) (vb : List Char) (a b w h : ℚ)
    (hvb : root.viewBox = some vb)
    (htok : (jsSplitWs (jsTrim vb)).map jsNumber = [some a, some b, some w, some h])
    (hw : 0 < w) (hh : 0 < h) :
    getSvgIntrinsicSize (some root) = some ⟨w, h⟩ := by
  have hne : vb.isEmpty = false := by
    cases hvbe : vb with
    | nil =>
      exfalso
      have hempty : (jsSplitWs (jsTrim ([] : List Char))).map jsNumber = [some 0] := by decide
      rw [hvbe, hempty] at htok
      simp at htok
    | cons c cs => rfl
  have hvbs : viewBoxSize vb = some ⟨w, h⟩ := by
    unfold viewBoxSize
    rw [htok]
    have hstep : viewBoxFromTokens [some a, some b, some w, some h] =
        if 0 < w ∧ 0 < h then some ⟨w, h⟩ else none := rfl
    rw [hstep, if_pos ⟨hw, hh⟩]
  have hres : viewBoxResult root.viewBox = some ⟨w, h⟩ := by
    rw [hvb]
    show (if vb.isEmpty = true then none else viewBoxSize vb) = some ⟨w, h⟩
    rw [hne]
    simpa using hvbs
  show (match viewBoxResult root.viewBox with
        | some s => some s
        | none => attrSize root) = some (⟨w, h⟩ : QSize)
  rw [hres]

/-- Closed witness: the viewBox of the catalog item Masjid Siluet wins over
    conflicting width and height attributes. -/
theorem viewBox_takes_priority_witness :
    getSvgIntrinsicSize
        (some ⟨some ("0 0 240 160".data), some ("7".data), some ("9".data)⟩) =
      some ⟨240, 160⟩ :=
  viewBox_takes_priority _ ("0 0 240 160".data) 0 0 240 160 rfl (by decide)
    (by norm_num) (by norm_num)

/-- Whether the viewBox arm of the source succeeds on this root. -/
def rootViewBoxOk (root : SvgRoot) : Bool := (viewBoxResult root.viewBox).isSome

/-- Whether an attribute parses, after unit stripping, to a strictly
    positive number (NaN compares false). -/
def posLen (attr : Option (List Char)) : Bool :=
  match parseLen attr with
  | some q => decide (0 < q)
  | none => false

/-- C7: for a markup whose parse throws (none), and for every parsed root
    lacking both a well-formed strictly-positive viewBox and width plus
    height attributes parsing to strictly positive numbers, the resolver
    returns null; the embedding is a total function, reflecting that the
    source catches any parse exception and never throws to its caller. -/
theorem intrinsic_size_null (doc : Option SvgRoot)
    (h : doc = none ∨ ∃ root, doc = some root ∧ rootViewBoxOk root = false ∧
      (posLen root.widthAttr = false ∨ posLen root.heightAttr = false)) :
    getSvgIntrinsicSize doc = none := by
  rcases h with h | ⟨root, hdoc, hvb, hwh⟩
  · rw [h]; rfl
  · rw [hdoc]
    have h1 : viewBoxResult root.viewBox = none := by
      unfold rootViewBoxOk at hvb
      cases hv : viewBoxResult root.viewBox with
      | none => rfl
      | some s => rw [hv] at hvb; simp at hvb
    show (match viewBoxResult root.viewBox with
          | some s => some s
          | none => attrSize root) = none
    rw [h1]
    show attrSize root = none
    have h2 : attrSize root = none := by
      unfold attrSize
      unfold posLen at hwh
      cases hw : parseLen root.widthAttr with
      | none => rfl
      | some w =>
        cases hh : parseLen root.heightAttr with
        | none => rfl
        | some hq =>
          rw [hw, hh] at hwh
          have hwh2 : decide (0 < w) = false ∨ decide (0 < hq) = false := hwh
          simp only [decide_eq_false_iff_not] at hwh2
          have hneg : ¬ (0 < w ∧ 0 < hq) := by
            intro hcontra
            rcases hwh2 with hbad | hbad
            · exact hbad hcontra.1
            · exact hbad hcontra.2
          show (if 0 < w ∧ 0 < hq then some (⟨w, hq⟩ : QSize) else none) = none
          rw [if_neg hneg]
    exact h2

/-- Closed witness: a root whose viewBox has a zero width token and whose
    width attribute is not numeric resolves to null. -/
theorem intrinsic_size_null_witness :
    getSvgIntrinsicSize
        (some ⟨some ("0 0 0 160".data), some ("abc".data), some ("10px".data)⟩) =
      none :=
  intrinsic_size_null _ (Or.inr ⟨_, rfl, by decide, Or.inl (by decide)⟩)

end JariahSvg
